import Mathlib

/-!
Shallow embedding of the turbomigrate CLI (Cloudflare D1 / Drizzle migration
orchestrator).  The definitions below are translated from the repository
sources:

* the main script (CLI pipeline: mode flag handling, config location,
  environment / database / migration selection, final `wrangler d1 execute`
  invocation), and
* the two config parsers (`parse-wrangler-config.ts` and the drizzle config
  parser), each of which contains its own copy of a JSONC comment-stripping
  routine.

Interactive prompts, the filesystem and the external `bunx` executor are
collaborators: they are modelled as explicit inputs (a record of prompt
answers, presence flags, directory listings, mtimes, success flags), and the
run is modelled as a pure function producing a trace of the prompts invoked,
warnings printed, external commands issued, and the final outcome.
-/

namespace Turbomigrate

/-- Cloudflare D1 database binding, from the `D1Database` interface of
`parse-wrangler-config.ts` (fields `binding`, `database_name`, optional
`database_id`). -/
structure D1Database where
  binding : String
  database_name : String
  database_id : Option String
  deriving DecidableEq, Repr

/-- The slice of an environment-scoped sub-document that the pipeline reads:
its (possibly absent) `d1_databases` array. -/
structure EnvDoc where
  d1_databases : Option (List D1Database)
  deriving DecidableEq, Repr

/-- The slice of a parsed wrangler config that the pipeline reads: the
(possibly absent) `env` mapping — modelled as an association list, preserving
JavaScript `Object.keys` insertion order — and the (possibly absent) top-level
`d1_databases` array. -/
structure WranglerConfig where
  env : Option (List (String × EnvDoc))
  d1_databases : Option (List D1Database)
  deriving DecidableEq, Repr

/-- The slice of a parsed drizzle config that the pipeline reads: the
optional `out` directory. -/
structure DrizzleConfig where
  out : Option String
  deriving DecidableEq, Repr

/-- JavaScript string truthiness: `undefined` and the empty string are falsy.
Used wherever the source branches on `selectedEnvironment ? ... : ...` or
checks `!data` on a prompt result. -/
def falsy : Option String → Bool
  | none => true
  | some s => s == ""

/-- A select prompt modelled as an oracle: the answer of the user is an index into
the option values; `none` models cancellation (or any non-option result),
which the source observes as a falsy `data`. -/
def selectValue (options : List String) (ans : Option Nat) : Option String :=
  ans.bind fun i => options[i]?

/-- The kinds of interactive prompts the script can invoke, in source order:
the local/remote mode select, the environment select, the database select,
the create-new-migration confirm, and the migration-file select. -/
inductive PromptKind where
  | mode
  | environment
  | database
  | createMigration
  | migration
  deriving DecidableEq, Repr

/-- Environment selection (main script, `selectedEnvironment`): when the
environment key list has length exactly one the single key is taken with no
prompt; otherwise — including the zero-key case — the select prompt is
invoked over all keys and a falsy answer cancels the run.  Returns
(prompt invoked?, `none` = run cancelled / `some k` = selected key). -/
def selectEnvironmentStep (environments : List String) (ans : Option Nat) :
    Bool × Option String :=
  if environments.length = 1 then
    (false, some (environments.headD ""))
  else
    let data := selectValue environments ans
    if falsy data then (true, none)
    else (true, data)

/-- Database list lookup (main script, `databases`): with a truthy selected
environment the list is read from the sub-document of that environment, otherwise
from the top level; every step of the optional chain can be absent. -/
def databasesOf (cfg : WranglerConfig) (selectedEnvironment : String) :
    Option (List D1Database) :=
  if selectedEnvironment ≠ "" then
    (cfg.env.bind fun es =>
      (es.find? fun p => p.1 == selectedEnvironment).map (·.2)).bind
      (·.d1_databases)
  else
    cfg.d1_databases

/-- Result of the database-selection block of the main script. -/
inductive DbStep where
  | thrown
  | fatalNoDb
  | cancelled
  | selected (db : Option D1Database)
  deriving DecidableEq, Repr

/-- Option values of the database select prompt (main script, `dbChoices`):
the value of each choice is `db.database_id ?? ""`. -/
def dbChoiceValues (databases : List D1Database) : List String :=
  databases.map fun db => db.database_id.getD ""

/-- Database selection (main script, `selectedDatabase`): reading `.length`
of an absent list throws; an empty list is a fatal "no databases" exit; a
singleton is auto-selected with no prompt; otherwise the select prompt is
invoked, a falsy answer (cancellation, or choosing a binding whose absent
identifier produced the empty option value) cancels the run, and a truthy
answer is resolved back by `find`-ing the first binding whose `database_id`
equals the chosen value. -/
def selectDatabaseStep (databases : Option (List D1Database)) (ans : Option Nat) :
    Bool × DbStep :=
  match databases with
  | none => (false, DbStep.thrown)
  | some databases =>
    if databases.length = 0 then (false, DbStep.fatalNoDb)
    else if databases.length = 1 then (false, DbStep.selected databases.head?)
    else
      let data := selectValue (dbChoiceValues databases) ans
      if falsy data then (true, DbStep.cancelled)
      else
        (true, DbStep.selected
          (databases.find? fun db => db.database_id == some (data.getD "")))

/-- Result of locating a config file (main script, `foundConfigs` /
`foundDrizzleConfig` blocks). -/
structure LocateResult where
  fatalMissing : Option (List String)
  warned : Bool
  selected : Option String
  deriving DecidableEq, Repr

/-- Candidate filenames that exist, in the caller-supplied priority order
(main script: `wranglerConfigs.filter((config) => existsSync(...))`). -/
def foundConfigs (candidates : List String) (present : String → Bool) :
    List String :=
  candidates.filter present

/-- Config location policy (main script, lines following `foundConfigs`):
zero matches is a fatal error listing the expected candidate names; more than
one match warns (non-fatally) and the first match — first in candidate
priority order — is used. -/
def locateConfig (candidates : List String) (present : String → Bool) :
    LocateResult :=
  let found := foundConfigs candidates present
  if found.length = 0 then ⟨some candidates, false, none⟩
  else ⟨none, decide (1 < found.length), found.head?⟩

/-- Path join as used by the script (`join(a, b)` from node:path, on the
already-resolved workdir). -/
def joinPath (a b : String) : String := a ++ "/" ++ b

/-- Migration artifact with its stat mtime (main script,
`sqlFilesWithStats` entries: name, full path, mtime). -/
structure MigrationFile where
  name : String
  path : String
  mtime : Nat
  deriving DecidableEq, Repr

/-- The sort comparator of the source, `(a, b) => b.mtime - a.mtime`, as a
boolean "a may precede b" relation: a sorts before b exactly when the
comparator is non-positive, i.e. `b.mtime ≤ a.mtime`. -/
def byMtimeDesc (a b : MigrationFile) : Bool := b.mtime ≤ a.mtime

/-- The source sorts with JavaScript `Array.prototype.sort`, which is
required (since ES2019) to be stable; the result of a stable sort consistent
with a total preorder is unique, and `List.insertionSort` is such a stable
sort, so it computes the same list (the theorems below establish that it is
a permutation of the input, non-increasing in mtime, and stable). -/
def sortMigrations (files : List MigrationFile) : List MigrationFile :=
  files.insertionSort fun a b => byMtimeDesc a b

/-- One option of a select prompt: display label and value. -/
structure Choice where
  label : String
  value : String
  deriving DecidableEq, Repr

/-- Options of the migration select prompt (main script,
`migrationChoices`): the entry at index 0 is flagged `NEWEST`, each value is
the full path of the file.  ANSI colour codes and the formatted time suffix of the
label are elided as pure presentation. -/
def migrationChoices (sorted : List MigrationFile) : List Choice :=
  sorted.enum.map fun p =>
    ⟨(if p.1 = 0 then "NEWEST" else "") ++ " " ++ p.2.name, p.2.path⟩

/-- The initially highlighted default of the migration select prompt
(main script: `initial: sqlFilesWithStats.at(0)?.path`). -/
def migrationPromptDefault (sorted : List MigrationFile) : Option String :=
  sorted.head?.map (·.path)

/-- The `.sql` filter of the main script: `file.endsWith(".sql")`. -/
def endsWithSql (file : String) : Bool :=
  ".sql".data.isSuffixOf file.data

/-- Final argument list handed to the external executor (main script,
`migrationParams`): the mode flags come from the CLI options (not from the
mode prompt), the environment flag is included only for a truthy selected
environment, and all empty-string entries are filtered out. -/
def migrationParams (selectedDatabase : Option D1Database)
    (localFlag remoteFlag : Bool)
    (selectedEnvironment selectedMigration : String) : List String :=
  (["wrangler", "d1", "execute",
    (selectedDatabase.map (·.database_name)).getD "",
    if localFlag then "--local" else "",
    if remoteFlag then "--remote" else ""]
    ++ (if selectedEnvironment ≠ "" then ["--env", selectedEnvironment] else [])
    ++ ["--file", selectedMigration]).filter (fun p => !(p == ""))

/-- Final outcome of a run: clean success, `process.exit(1)` with a message,
or an unhandled exception. -/
inductive Outcome where
  | success
  | exit1 (msg : String)
  | thrown (msg : String)
  deriving DecidableEq, Repr

/-- Observable trace of a run: prompts invoked (in order), warnings printed,
external commands issued (program, argument list), and the outcome. -/
structure RunTrace where
  prompts : List PromptKind
  warnings : List String
  execs : List (String × List String)
  outcome : Outcome
  deriving DecidableEq, Repr

/-- Pre-chosen answers for every prompt the script may invoke.  Select
prompts answer with an option index (`none` = cancel); the confirm prompt
answers with a boolean (`none` = prompt error, the only case the source
checks for it). -/
structure PromptAnswers where
  mode : Option Nat
  environment : Option Nat
  database : Option Nat
  createNew : Option Bool
  migration : Option Nat

/-- Inputs of a run after CLI/flag parsing and config parsing: the two flag
options, the resolved workdir, the two parsed configs, the filesystem facts
the script observes (migrations folder existence before and after a generate
step, the file listing of the folder, per-path mtimes) and the success of the two
external commands. -/
structure RunInput where
  localFlag : Bool
  remoteFlag : Bool
  workdir : String
  wranglerConfig : WranglerConfig
  drizzleConfig : DrizzleConfig
  folderBeforeGenerate : Bool
  folderAfterGenerate : Bool
  dirFiles : List String
  mtimeOf : String → Nat
  generateOk : Bool
  executeOk : Bool

/-- Last stage of the run (main script, final `try` block): build
`migrationParams`, invoke the executor once, and surface its failure as the
failure of the whole run itself. -/
def execStage (prompts : List PromptKind) (warnings : List String)
    (execs : List (String × List String)) (inp : RunInput)
    (selectedDatabase : Option D1Database)
    (selectedEnvironment selectedMigration : String) : RunTrace :=
  let params := migrationParams selectedDatabase inp.localFlag inp.remoteFlag
    selectedEnvironment selectedMigration
  let execs2 := execs ++ [("bunx", params)]
  if inp.executeOk then ⟨prompts, warnings, execs2, Outcome.success⟩
  else ⟨prompts, warnings, execs2, Outcome.exit1 "Migration cancelled: "⟩

/-- The whole pipeline of the main script after config parsing, as a pure
function of the inputs and the prompt answers.  Mirrors, in source order:
the local/remote prompt (invoked only when neither flag was passed; its
answer is checked for cancellation and then discarded — the source never
assigns it), environment selection, database selection, the
create-new-migration confirm (always invoked), the optional
`drizzle-kit generate` invocation, the migrations-folder re-check, the
`.sql` listing (warn-and-continue when empty, otherwise sort + select
prompt), and the final execute invocation. -/
def run (inp : RunInput) (ans : PromptAnswers) : RunTrace :=
  let modePrompts : List PromptKind :=
    if !inp.localFlag && !inp.remoteFlag then [PromptKind.mode] else []
  let modeCancelled : Bool :=
    if !inp.localFlag && !inp.remoteFlag then
      falsy (selectValue ["local", "remote"] ans.mode)
    else false
  if modeCancelled then
    ⟨modePrompts, [], [], Outcome.exit1 "Migration cancelled."⟩
  else
    let environments := (inp.wranglerConfig.env.getD []).map (·.1)
    let envStep := selectEnvironmentStep environments ans.environment
    let prompts1 := modePrompts ++
      (if envStep.1 then [PromptKind.environment] else [])
    match envStep.2 with
    | none => ⟨prompts1, [], [], Outcome.exit1 "Migration cancelled."⟩
    | some selectedEnvironment =>
      let dbStep := selectDatabaseStep
        (databasesOf inp.wranglerConfig selectedEnvironment) ans.database
      let prompts2 := prompts1 ++
        (if dbStep.1 then [PromptKind.database] else [])
      match dbStep.2 with
      | DbStep.thrown => ⟨prompts2, [], [], Outcome.thrown "TypeError"⟩
      | DbStep.fatalNoDb =>
        ⟨prompts2, [], [], Outcome.exit1 "No cloudflare d1 databases found/configured."⟩
      | DbStep.cancelled => ⟨prompts2, [], [], Outcome.exit1 "Migration cancelled."⟩
      | DbStep.selected selectedDatabase =>
        let prompts3 := prompts2 ++ [PromptKind.createMigration]
        match ans.createNew with
        | none => ⟨prompts3, [], [], Outcome.exit1 "Migration cancelled."⟩
        | some createNewMigration =>
          let execs1 : List (String × List String) :=
            if createNewMigration then [("bunx", ["drizzle-kit", "generate"])]
            else []
          if createNewMigration && !inp.generateOk then
            ⟨prompts3, [], execs1, Outcome.exit1 "Migration cancelled."⟩
          else
            let foundFolder :=
              if createNewMigration then inp.folderAfterGenerate
              else inp.folderBeforeGenerate
            if !foundFolder then
              ⟨prompts3, [], execs1,
                Outcome.exit1 "Migration cancelled: Was not able to locate migrations folder"⟩
            else
              let migrationsFolder :=
                joinPath inp.workdir (inp.drizzleConfig.out.getD "drizzle")
              let sqlFiles := inp.dirFiles.filter endsWithSql
              if sqlFiles.length = 0 then
                execStage prompts3
                  ["No SQL migration files found in the migrations folder."]
                  execs1 inp selectedDatabase selectedEnvironment ""
              else
                let withStats := sqlFiles.map fun f =>
                  (⟨f, joinPath migrationsFolder f,
                    inp.mtimeOf (joinPath migrationsFolder f)⟩ : MigrationFile)
                let sorted := sortMigrations withStats
                let choices := migrationChoices sorted
                let data := (ans.migration.bind fun i => choices[i]?).map (·.value)
                let prompts4 := prompts3 ++ [PromptKind.migration]
                if falsy data then
                  ⟨prompts4, [], execs1, Outcome.exit1 "Migration cancelled."⟩
                else
                  execStage prompts4 [] execs1 inp selectedDatabase
                    selectedEnvironment (data.getD "")

/-- JSON documents, as produced by the JavaScript `JSON.parse` builtin. -/
inductive Json where
  | null
  | bool (b : Bool)
  | num (n : Int)
  | str (s : List Char)
  | arr (elements : List Json)
  | obj (fields : List (List Char × Json))

/-- JSON whitespace. -/
def isJsonWs (c : Char) : Bool :=
  c == ' ' || c == '\t' || c == '\n' || c == '\r'

/-- Skip leading JSON whitespace. -/
def skipWs : List Char → List Char
  | c :: rest => if isJsonWs c then skipWs rest else c :: rest
  | [] => []

/-- JSON string escape sequences (the `\\u` form is not needed by any input
of this development and is treated as a parse failure). -/
def unescape (e : Char) : Option Char :=
  if e = 'n' then some '\n'
  else if e = 't' then some '\t'
  else if e = 'r' then some '\r'
  else if e = 'b' then some (Char.ofNat 8)
  else if e = 'f' then some (Char.ofNat 12)
  else if e = '"' ∨ e = '\\' ∨ e = '/' then some e
  else none

/-- Parse the body of a JSON string literal, after its opening quote; returns
the decoded content and the remainder after the closing quote.  An input that
ends inside the literal is a parse failure, as it is for `JSON.parse`. -/
def parseStringBody : List Char → Option (List Char × List Char)
  | '"' :: rest => some ([], rest)
  | '\\' :: e :: rest =>
    (unescape e).bind fun c =>
      (parseStringBody rest).map fun p => (c :: p.1, p.2)
  | c :: rest => (parseStringBody rest).map fun p => (c :: p.1, p.2)
  | [] => none

/-- Digit run to a natural number. -/
def digitsToNat (ds : List Char) : Nat :=
  ds.foldl (fun acc d => 10 * acc + (d.toNat - '0'.toNat)) 0

/-- Parse a nonempty digit run. -/
def parseNatNum (cs : List Char) : Option (Nat × List Char) :=
  let digits := cs.takeWhile Char.isDigit
  if digits.isEmpty then none
  else some (digitsToNat digits, cs.dropWhile Char.isDigit)

/-- Parse an (integer) JSON number; fractions and exponents are not needed
by any input of this development. -/
def parseNumber (cs : List Char) : Option (Json × List Char) :=
  match cs with
  | '-' :: rest => (parseNatNum rest).map fun p => (Json.num (-(p.1 : Int)), p.2)
  | _ => (parseNatNum cs).map fun p => (Json.num (p.1 : Int), p.2)

/-- Parse one of the three JSON keyword literals. -/
def parseLiteral (cs : List Char) : Option (Json × List Char) :=
  if "null".data.isPrefixOf cs then some (Json.null, cs.drop 4)
  else if "true".data.isPrefixOf cs then some (Json.bool true, cs.drop 4)
  else if "false".data.isPrefixOf cs then some (Json.bool false, cs.drop 5)
  else none

mutual

/-- Recursive-descent JSON value parser, modelling the `JSON.parse` builtin
that both config parsers call after comment stripping.  The fuel argument
only bounds recursion depth; `jsonParse` supplies more fuel than any input
can consume, since every nested call follows at least one consumed input
character per two levels of recursion. -/
def parseValue : Nat → List Char → Option (Json × List Char)
  | 0, _ => none
  | fuel + 1, cs =>
    match skipWs cs with
    | '"' :: rest => (parseStringBody rest).map fun p => (Json.str p.1, p.2)
    | '[' :: rest =>
      (match skipWs rest with
       | ']' :: rest2 => some (Json.arr [], rest2)
       | _ => (parseItems fuel (skipWs rest)).map fun p => (Json.arr p.1, p.2))
    | '\x7b' :: rest =>
      (match skipWs rest with
       | '\x7d' :: rest2 => some (Json.obj [], rest2)
       | _ => (parseFields fuel (skipWs rest)).map fun p => (Json.obj p.1, p.2))
    | cs2 =>
      (match parseLiteral cs2 with
       | some p => some p
       | none => parseNumber cs2)

/-- Comma-separated array items up to the closing bracket. -/
def parseItems : Nat → List Char → Option (List Json × List Char)
  | 0, _ => none
  | fuel + 1, cs =>
    (parseValue fuel cs).bind fun p =>
      match skipWs p.2 with
      | ',' :: rest => (parseItems fuel rest).map fun q => (p.1 :: q.1, q.2)
      | ']' :: rest => some ([p.1], rest)
      | _ => none

/-- Comma-separated object fields up to the closing brace. -/
def parseFields : Nat → List Char → Option (List (List Char × Json) × List Char)
  | 0, _ => none
  | fuel + 1, cs =>
    match skipWs cs with
    | '"' :: rest =>
      (parseStringBody rest).bind fun kp =>
        match skipWs kp.2 with
        | ':' :: rest2 =>
          (parseValue fuel rest2).bind fun vp =>
            match skipWs vp.2 with
            | ',' :: rest3 =>
              (parseFields fuel rest3).map fun q => ((kp.1, vp.1) :: q.1, q.2)
            | '\x7d' :: rest3 => some ([(kp.1, vp.1)], rest3)
            | _ => none
        | _ => none
    | _ => none

end

/-- Model of the `JSON.parse` builtin: parse one value and require that only
whitespace remains. -/
def jsonParse (cs : List Char) : Option Json :=
  match parseValue (2 * cs.length + 2) cs with
  | some p => if (skipWs p.2).isEmpty then some p.1 else none
  | none => none

namespace WranglerParse

/-- Per-line effect of the single-line-comment regex
`content.replace(/\x2f\x2f.*$/gm, "")` of `parse-wrangler-config.ts`:
on a newline-free line, everything from the first `//` on is removed. -/
def truncLineAt : List Char → List Char
  | '/' :: '/' :: _ => []
  | c :: rest => c :: truncLineAt rest
  | [] => []

/-- Split on newline characters (the line structure the `m` regex flag sees). -/
def splitOnNl : List Char → List (List Char)
  | [] => [[]]
  | '\n' :: rest => [] :: splitOnNl rest
  | c :: rest =>
    match splitOnNl rest with
    | l :: ls => (c :: l) :: ls
    | [] => [[c]]

/-- Rejoin lines with newline characters. -/
def joinNl : List (List Char) → List Char
  | [] => []
  | [l] => l
  | l :: ls => l ++ '\n' :: joinNl ls

/-- First replace of `parseJsonc` in `parse-wrangler-config.ts`: remove
single-line comments, i.e. truncate every line at its first `//`. -/
def stripLineComments (cs : List Char) : List Char :=
  joinNl ((splitOnNl cs).map truncLineAt)

/-- Whether a `*``/` terminator occurs in the input. -/
def hasBlockEnd : List Char → Bool
  | '*' :: '/' :: _ => true
  | _ :: rest => hasBlockEnd rest
  | [] => false

/-- Drop through the first `*``/` terminator. -/
def dropBlockEnd : List Char → List Char
  | '*' :: '/' :: rest => rest
  | _ :: rest => dropBlockEnd rest
  | [] => []

/-- Second replace of `parseJsonc`: remove each `/``*` ... `*``/` block
(non-greedy, left to right); an unterminated block start is left in place,
as the regex then has no match.  Every step consumes at least one input
character, so fuel equal to the input length never runs out. -/
def stripBlocksFuel : Nat → List Char → List Char
  | 0, cs => cs
  | fuel + 1, cs =>
    match cs with
    | '/' :: '*' :: rest =>
      if hasBlockEnd rest then stripBlocksFuel fuel (dropBlockEnd rest)
      else '/' :: '*' :: rest
    | c :: rest => c :: stripBlocksFuel fuel rest
    | [] => []

/-- Second replace of `parseJsonc`, at fuel equal to the input length. -/
def stripBlockComments (cs : List Char) : List Char :=
  stripBlocksFuel cs.length cs

/-- JavaScript regex whitespace class (ASCII part; no input of this
development contains the Unicode spaces it also covers). -/
def isJsWs (c : Char) : Bool :=
  c == ' ' || c == '\t' || c == '\n' || c == '\r' || c == '\x0B' || c == '\x0C'

/-- Third replace of `parseJsonc`, the regex
`cleaned.replace(/,(\s*[\x7d\x5d])/g, "$1")`: a comma followed by whitespace
and a closing brace/bracket is dropped (the whitespace and bracket are kept),
scanning resumes after the bracket; at a comma not so followed the scan
advances one character.  Every step consumes at least one input character,
so fuel equal to the input length never runs out. -/
def stripCommasFuel : Nat → List Char → List Char
  | 0, cs => cs
  | fuel + 1, cs =>
    match cs with
    | ',' :: rest =>
      (match rest.dropWhile isJsWs with
       | c :: rest2 =>
         if c == '\x7d' || c == ']' then
           rest.takeWhile isJsWs ++ c :: stripCommasFuel fuel rest2
         else ',' :: stripCommasFuel fuel rest
       | [] => ',' :: stripCommasFuel fuel rest)
    | c :: rest => c :: stripCommasFuel fuel rest
    | [] => []

/-- Third replace of `parseJsonc`, at fuel equal to the input length. -/
def stripTrailingCommas (cs : List Char) : List Char :=
  stripCommasFuel cs.length cs

/-- The three replaces of `parseJsonc` in `parse-wrangler-config.ts`, in
source order. -/
def cleanJsonc (cs : List Char) : List Char :=
  stripTrailingCommas (stripBlockComments (stripLineComments cs))

/-- The `parseJsonc` function of `parse-wrangler-config.ts`: strip comments
and trailing commas, then hand the result to `JSON.parse`. -/
def parseJsonc (cs : List Char) : Option Json :=
  jsonParse (cleanJsonc cs)

end WranglerParse

namespace DrizzleParse

/-- Per-line effect of the single-line-comment regex of the drizzle config
independent parser copy of `parseJsonc`. -/
def truncLineAt : List Char → List Char
  | '/' :: '/' :: _ => []
  | c :: rest => c :: truncLineAt rest
  | [] => []

/-- Split on newline characters. -/
def splitOnNl : List Char → List (List Char)
  | [] => [[]]
  | '\n' :: rest => [] :: splitOnNl rest
  | c :: rest =>
    match splitOnNl rest with
    | l :: ls => (c :: l) :: ls
    | [] => [[c]]

/-- Rejoin lines with newline characters. -/
def joinNl : List (List Char) → List Char
  | [] => []
  | [l] => l
  | l :: ls => l ++ '\n' :: joinNl ls

/-- First replace of the drizzle-parser copy of `parseJsonc`. -/
def stripLineComments (cs : List Char) : List Char :=
  joinNl ((splitOnNl cs).map truncLineAt)

/-- Whether a `*``/` terminator occurs in the input. -/
def hasBlockEnd : List Char → Bool
  | '*' :: '/' :: _ => true
  | _ :: rest => hasBlockEnd rest
  | [] => false

/-- Drop through the first `*``/` terminator. -/
def dropBlockEnd : List Char → List Char
  | '*' :: '/' :: rest => rest
  | _ :: rest => dropBlockEnd rest
  | [] => []

/-- Second replace of the drizzle-parser copy of `parseJsonc` (fuelled as in
`WranglerParse.stripBlocksFuel`). -/
def stripBlocksFuel : Nat → List Char → List Char
  | 0, cs => cs
  | fuel + 1, cs =>
    match cs with
    | '/' :: '*' :: rest =>
      if hasBlockEnd rest then stripBlocksFuel fuel (dropBlockEnd rest)
      else '/' :: '*' :: rest
    | c :: rest => c :: stripBlocksFuel fuel rest
    | [] => []

/-- Second replace of the drizzle-parser copy of `parseJsonc`. -/
def stripBlockComments (cs : List Char) : List Char :=
  stripBlocksFuel cs.length cs

/-- JavaScript regex whitespace class (ASCII part). -/
def isJsWs (c : Char) : Bool :=
  c == ' ' || c == '\t' || c == '\n' || c == '\r' || c == '\x0B' || c == '\x0C'

/-- Third replace of the drizzle-parser copy of `parseJsonc` (fuelled as in
`WranglerParse.stripCommasFuel`). -/
def stripCommasFuel : Nat → List Char → List Char
  | 0, cs => cs
  | fuel + 1, cs =>
    match cs with
    | ',' :: rest =>
      (match rest.dropWhile isJsWs with
       | c :: rest2 =>
         if c == '\x7d' || c == ']' then
           rest.takeWhile isJsWs ++ c :: stripCommasFuel fuel rest2
         else ',' :: stripCommasFuel fuel rest
       | [] => ',' :: stripCommasFuel fuel rest)
    | c :: rest => c :: stripCommasFuel fuel rest
    | [] => []

/-- Third replace of the drizzle-parser copy of `parseJsonc`. -/
def stripTrailingCommas (cs : List Char) : List Char :=
  stripCommasFuel cs.length cs

/-- The three replaces of the drizzle-parser copy of `parseJsonc`, in source
order. -/
def cleanJsonc (cs : List Char) : List Char :=
  stripTrailingCommas (stripBlockComments (stripLineComments cs))

/-- The drizzle config independent parser copy of `parseJsonc`. -/
def parseJsonc (cs : List Char) : Option Json :=
  jsonParse (cleanJsonc cs)

end DrizzleParse

/-! Concrete scenarios used by the end-to-end theorems below. -/

/-- Wrangler config of the end-to-end singleton scenario: exactly one
environment `prod` holding exactly one database binding. -/
def c1wrangler : WranglerConfig :=
  ⟨some [("prod", ⟨some [⟨"DB", "app", some "abc123"⟩]⟩)], none⟩

/-- Inputs of the end-to-end singleton scenario: flags `--remote --dir
./proj`, drizzle `out` directory `drizzle` holding exactly one migration file
`0000_init.sql`, and both external commands succeeding. -/
def c1input : RunInput :=
  ⟨false, true, "./proj", c1wrangler, ⟨some "drizzle"⟩, true, true,
    ["0000_init.sql"], fun _ => 0, true, true⟩

/-- Prompt answers of the end-to-end singleton scenario: decline creating a
new migration, accept the offered (single) migration file. -/
def c1answers : PromptAnswers := ⟨none, none, none, some false, some 0⟩

/-- Wrangler config of the no-mode-flag scenario (same as the singleton
scenario). -/
def c2wrangler : WranglerConfig :=
  ⟨some [("prod", ⟨some [⟨"DB", "app", some "abc123"⟩]⟩)], none⟩

/-- Inputs of the no-mode-flag scenario: neither `--local` nor `--remote`
passed. -/
def c2input : RunInput :=
  ⟨false, false, "./proj", c2wrangler, ⟨some "drizzle"⟩, true, true,
    ["0000_init.sql"], fun _ => 0, true, true⟩

/-- Prompt answers of the no-mode-flag scenario: the user picks `remote`
(index 1) at the mode prompt, declines creating a new migration, accepts the
single migration file. -/
def c2answers : PromptAnswers := ⟨some 1, none, none, some false, some 0⟩

/-- A valid plain-JSON input whose only string literal contains `//`. -/
def c3input : List Char := "\x7b\"a\": \"b//c\"\x7d".data

/-- A JSONC input with a line comment, a block comment and two trailing
commas. -/
def c3commented : List Char :=
  "\x7b // note\n  \"a\": [1, 2,], /* block\n comment */ \"b\": true, \x7d".data

/-- The comment-and-trailing-comma-stripped plain-JSON equivalent of
`c3commented`. -/
def c3stripped : List Char :=
  "\x7b \"a\": [1, 2], \"b\": true \x7d".data

/-- Inputs of the absent-bindings scenario: one environment `prod` whose
sub-document has no `d1_databases` key at all, and no top-level bindings
either. -/
def c6input : RunInput :=
  ⟨false, true, "./proj", ⟨some [("prod", ⟨none⟩)], none⟩, ⟨some "drizzle"⟩,
    true, true, [], fun _ => 0, true, true⟩

/-- Prompt answers of the absent-bindings scenario (never reached past the
database step). -/
def c6answers : PromptAnswers := ⟨none, none, none, some false, none⟩

/-- A run-input family with one environment holding one binding, the
`--remote` flag set, the migrations folder present, and both external
commands succeeding; used to state the empty-migrations-folder behaviour for
arbitrary directory contents. -/
def simpleInput (workdir out envName : String) (db : D1Database)
    (files : List String) (mtimeOf : String → Nat) : RunInput :=
  ⟨false, true, workdir, ⟨some [(envName, ⟨some [db]⟩)], none⟩, ⟨some out⟩,
    true, true, files, mtimeOf, true, true⟩

/-! Theorems.  Each claim theorem carries the claim id in its doc comment;
the lemmas named `..._eq` immediately below are shared helpers for the
duplicated-routine claim only. -/

theorem truncLineAt_eq (cs : List Char) :
    WranglerParse.truncLineAt cs = DrizzleParse.truncLineAt cs := by
  induction cs using WranglerParse.truncLineAt.induct with
  | case1 rest => rfl
  | case2 c rest h ih =>
    rw [WranglerParse.truncLineAt.eq_def, DrizzleParse.truncLineAt.eq_def]
    simp_all
  | case3 => rfl

theorem splitOnNl_eq (cs : List Char) :
    WranglerParse.splitOnNl cs = DrizzleParse.splitOnNl cs := by
  induction cs using WranglerParse.splitOnNl.induct with
  | case1 => rfl
  | case2 rest ih =>
    rw [WranglerParse.splitOnNl.eq_def, DrizzleParse.splitOnNl.eq_def]
    simp_all
  | case3 c rest h l ls heq ih =>
    rw [WranglerParse.splitOnNl.eq_def, DrizzleParse.splitOnNl.eq_def]
    simp_all
  | case4 c rest h heq ih =>
    rw [WranglerParse.splitOnNl.eq_def, DrizzleParse.splitOnNl.eq_def]
    simp_all

theorem joinNl_eq (ls : List (List Char)) :
    WranglerParse.joinNl ls = DrizzleParse.joinNl ls := by
  induction ls using WranglerParse.joinNl.induct with
  | case1 => rfl
  | case2 l => rfl
  | case3 l l2 ls ih =>
    rw [WranglerParse.joinNl.eq_def, DrizzleParse.joinNl.eq_def]
    simp_all

theorem stripLineComments_eq (cs : List Char) :
    WranglerParse.stripLineComments cs = DrizzleParse.stripLineComments cs := by
  unfold WranglerParse.stripLineComments DrizzleParse.stripLineComments
  rw [splitOnNl_eq, ← joinNl_eq]
  congr 1
  exact List.map_congr_left fun l _ => truncLineAt_eq l

theorem hasBlockEnd_eq (cs : List Char) :
    WranglerParse.hasBlockEnd cs = DrizzleParse.hasBlockEnd cs := by
  induction cs using WranglerParse.hasBlockEnd.induct with
  | case1 rest => rfl
  | case2 c rest h ih =>
    rw [WranglerParse.hasBlockEnd.eq_def, DrizzleParse.hasBlockEnd.eq_def]
    simp_all
  | case3 => rfl

theorem dropBlockEnd_eq (cs : List Char) :
    WranglerParse.dropBlockEnd cs = DrizzleParse.dropBlockEnd cs := by
  induction cs using WranglerParse.dropBlockEnd.induct with
  | case1 rest => rfl
  | case2 c rest h ih =>
    rw [WranglerParse.dropBlockEnd.eq_def, DrizzleParse.dropBlockEnd.eq_def]
    simp_all
  | case3 => rfl

theorem stripBlocksFuel_eq (fuel : Nat) (cs : List Char) :
    WranglerParse.stripBlocksFuel fuel cs = DrizzleParse.stripBlocksFuel fuel cs := by
  induction fuel, cs using WranglerParse.stripBlocksFuel.induct with
  | case1 cs => rfl
  | case2 fuel rest h ih =>
    rw [WranglerParse.stripBlocksFuel.eq_def, DrizzleParse.stripBlocksFuel.eq_def]
    simp_all [hasBlockEnd_eq, dropBlockEnd_eq]
  | case3 fuel rest h =>
    rw [WranglerParse.stripBlocksFuel.eq_def, DrizzleParse.stripBlocksFuel.eq_def]
    simp_all [hasBlockEnd_eq]
  | case4 fuel c rest h ih =>
    rw [WranglerParse.stripBlocksFuel.eq_def, DrizzleParse.stripBlocksFuel.eq_def]
    simp_all
  | case5 fuel => rfl

theorem stripCommasFuel_eq (fuel : Nat) (cs : List Char) :
    WranglerParse.stripCommasFuel fuel cs = DrizzleParse.stripCommasFuel fuel cs := by
  have hWs : DrizzleParse.isJsWs = WranglerParse.isJsWs := rfl
  induction fuel, cs using WranglerParse.stripCommasFuel.induct with
  | case1 cs => rfl
  | case2 fuel rest c rest2 heq hbr ih =>
    rw [WranglerParse.stripCommasFuel.eq_def, DrizzleParse.stripCommasFuel.eq_def, hWs]
    simp [heq, hbr, ih]
  | case3 fuel rest c rest2 heq hbr ih =>
    rw [WranglerParse.stripCommasFuel.eq_def, DrizzleParse.stripCommasFuel.eq_def, hWs]
    simp [heq, hbr, ih]
  | case4 fuel rest heq ih =>
    rw [WranglerParse.stripCommasFuel.eq_def, DrizzleParse.stripCommasFuel.eq_def, hWs]
    simp [heq, ih]
  | case5 fuel c rest h ih =>
    rw [WranglerParse.stripCommasFuel.eq_def, DrizzleParse.stripCommasFuel.eq_def]
    simp_all
  | case6 fuel => rfl

theorem cleanJsonc_eq (cs : List Char) :
    WranglerParse.cleanJsonc cs = DrizzleParse.cleanJsonc cs := by
  unfold WranglerParse.cleanJsonc DrizzleParse.cleanJsonc
  unfold WranglerParse.stripTrailingCommas DrizzleParse.stripTrailingCommas
  unfold WranglerParse.stripBlockComments DrizzleParse.stripBlockComments
  rw [stripLineComments_eq, stripBlocksFuel_eq, stripCommasFuel_eq]

/-- C1 counterexample: in the singleton scenario (one environment, one
database binding, one migration file, `--remote` set) the run does NOT
resolve without interactive prompts — its prompt trace is nonempty (the
create-new-migration confirm and the migration select are always invoked),
refuting the claim that no prompt is invoked. -/
theorem run_c1_prompts_nonempty : (run c1input c1answers).prompts ≠ [] := by
  decide

/-- C1 amended: in the singleton scenario the run invokes no environment,
database or mode prompt, but does invoke the create-new-migration confirm
and the migration select; with those answered (decline; take the single
file) it resolves to environment `prod`, database `app`, mode `remote`,
migration `0000_init.sql`, and issues exactly one execute invocation. -/
theorem run_c1_amended :
    run c1input c1answers =
      ⟨[PromptKind.createMigration, PromptKind.migration], [],
        [("bunx", ["wrangler", "d1", "execute", "app", "--remote", "--env",
          "prod", "--file", "./proj/drizzle/0000_init.sql"])],
        Outcome.success⟩ := by
  decide

/-- C2: when neither `--local` nor `--remote` is passed, the mode prompt is
invoked, but its answer (here `remote`, index 1) is discarded: the executor
invocation contains neither `--local` nor `--remote`, contradicting the
claim that exactly one of them appears. -/
theorem run_mode_prompt_answer_discarded :
    (run c2input c2answers).prompts =
      [PromptKind.mode, PromptKind.createMigration, PromptKind.migration] ∧
    (run c2input c2answers).execs =
      [("bunx", ["wrangler", "d1", "execute", "app", "--env", "prod",
        "--file", "./proj/drizzle/0000_init.sql"])] ∧
    (∀ e ∈ (run c2input c2answers).execs,
      ¬ "--local" ∈ e.2 ∧ ¬ "--remote" ∈ e.2) := by
  decide

/-- C3: the naive regex-based comment stripping corrupts a string literal
containing `//`.  On a JSONC input with genuine line/block comments and
trailing commas, `parseJsonc` agrees with parsing the hand-stripped
plain-JSON equivalent; but on the valid plain-JSON input whose string
literal contains `//`, the stripping truncates the input, `parseJsonc`
fails, and the direct parse of the (already-plain) input succeeds. -/
theorem parseJsonc_corrupts_string_literal :
    WranglerParse.parseJsonc c3commented = jsonParse c3stripped ∧
    (WranglerParse.parseJsonc c3commented).isSome = true ∧
    WranglerParse.cleanJsonc c3input = "\x7b\"a\": \"b".data ∧
    WranglerParse.parseJsonc c3input = none ∧
    jsonParse c3input = some (Json.obj [("a".data, Json.str "b//c".data)]) :=
  ⟨rfl, rfl, rfl, rfl, rfl⟩

/-- C4 counterexample: with two bindings, the first of which has no
`database_id`, choosing the first binding at the prompt does NOT yield the
binding at the chosen position — the empty option value is treated as a
falsy answer and the run is cancelled. -/
theorem selectDatabaseStep_absent_id_cancels :
    (selectDatabaseStep
        (some [⟨"A", "alpha", none⟩, ⟨"B", "beta", some "xyz123"⟩])
        (some 0)).2 ≠
      DbStep.selected (some ⟨"A", "alpha", none⟩) := by
  decide

/-- C4 amended: a length-one binding list is auto-selected without a prompt;
for longer lists, choosing a binding with a nonempty identifier prompts and
returns a binding whose identifier equals the chosen value; choosing a
binding whose identifier is absent cancels the run (and does not throw, and
does not fall back to the chosen position). -/
theorem selectDatabaseStep_amended :
    (∀ (db : D1Database) (ans : Option Nat),
      selectDatabaseStep (some [db]) ans = (false, DbStep.selected (some db))) ∧
    (∀ (dbs : List D1Database) (i : Nat) (db : D1Database) (v : String),
      2 ≤ dbs.length → dbs[i]? = some db → db.database_id = some v → v ≠ "" →
      (selectDatabaseStep (some dbs) (some i)).1 = true ∧
      ∃ chosen, (selectDatabaseStep (some dbs) (some i)).2 =
          DbStep.selected (some chosen) ∧ chosen.database_id = some v) ∧
    (∀ (dbs : List D1Database) (i : Nat) (db : D1Database),
      2 ≤ dbs.length → dbs[i]? = some db → db.database_id = none →
      (selectDatabaseStep (some dbs) (some i)).2 = DbStep.cancelled) := by
  refine ⟨?_, ?_, ?_⟩
  · intro db ans
    simp [selectDatabaseStep]
  · intro dbs i db v hlen hget hid hv
    have hlen0 : ¬ dbs.length = 0 := by omega
    have hlen1 : ¬ dbs.length = 1 := by omega
    have hdata : selectValue (dbChoiceValues dbs) (some i) = some v := by
      simp [selectValue, dbChoiceValues, hget, hid]
    have hfalsy : falsy (some v) = false := by
      simp [falsy, hv]
    have hfind : (dbs.find? fun db => db.database_id == some v).isSome := by
      rw [List.find?_isSome]
      exact ⟨db, List.getElem?_mem hget, by simp [hid]⟩
    obtain ⟨chosen, hchosen⟩ := Option.isSome_iff_exists.mp hfind
    refine ⟨?_, chosen, ?_, ?_⟩
    · simp [selectDatabaseStep, hlen0, hlen1, hdata, hfalsy]
    · simp [selectDatabaseStep, hlen0, hlen1, hdata, hfalsy, hchosen]
    · have := List.find?_some hchosen
      simpa using this
  · intro dbs i db hlen hget hid
    have hlen0 : ¬ dbs.length = 0 := by omega
    have hlen1 : ¬ dbs.length = 1 := by omega
    have hdata : selectValue (dbChoiceValues dbs) (some i) = some "" := by
      simp [selectValue, dbChoiceValues, hget, hid]
    simp [selectDatabaseStep, hlen0, hlen1, hdata, falsy]

/-- C4 witness: a concrete two-binding list where choosing index 1 returns
the binding with the chosen identifier. -/
theorem selectDatabaseStep_amended_witness :
    (selectDatabaseStep (some [⟨"A", "alpha", some "id-aaa"⟩,
        ⟨"B", "beta", some "id-bbb"⟩]) (some 1)).1 = true ∧
    ∃ chosen, (selectDatabaseStep (some [⟨"A", "alpha", some "id-aaa"⟩,
        ⟨"B", "beta", some "id-bbb"⟩]) (some 1)).2 =
        DbStep.selected (some chosen) ∧ chosen.database_id = some "id-bbb" :=
  selectDatabaseStep_amended.2.1
    [⟨"A", "alpha", some "id-aaa"⟩, ⟨"B", "beta", some "id-bbb"⟩] 1
    ⟨"B", "beta", some "id-bbb"⟩ "id-bbb" (by decide) (by decide) rfl
    (by decide)

/-- C5: with zero environment keys the interactive environment prompt IS
invoked (the source auto-selects only on length exactly one), contradicting
the claim that zero-or-one keys never prompt; with exactly one key the
single key is auto-selected without a prompt. -/
theorem selectEnvironmentStep_zero_keys_prompt_invoked :
    (∀ ans : Option Nat, (selectEnvironmentStep [] ans).1 = true) ∧
    (∀ (k : String) (ans : Option Nat),
      selectEnvironmentStep [k] ans = (false, some k)) := by
  constructor
  · intro ans
    simp [selectEnvironmentStep, selectValue]
  · intro k ans
    simp [selectEnvironmentStep]

/-- C6: an entirely absent binding collection is not a clean fatal error:
the database step observes `undefined` and reading its `.length` throws an
unhandled TypeError, both at stage level and in a full run whose single
environment has no `d1_databases` key; an empty (but present) collection is
the clean fatal "no databases" exit the claim describes. -/
theorem selectDatabaseStep_absent_collection_throws :
    (∀ ans : Option Nat, selectDatabaseStep none ans = (false, DbStep.thrown)) ∧
    (∀ ans : Option Nat,
      selectDatabaseStep (some []) ans = (false, DbStep.fatalNoDb)) ∧
    databasesOf ⟨some [("prod", ⟨none⟩)], none⟩ "prod" = none ∧
    (run c6input c6answers).outcome = Outcome.thrown "TypeError" := by
  refine ⟨fun _ => rfl, fun _ => rfl, rfl, by decide⟩

/-- C7: the migration list offered for selection is a permutation of the
artifacts, non-increasing in mtime (an artifact with a strictly larger mtime
always precedes one with a smaller mtime), stable (a pair in input order
whose mtimes satisfy the comparator stays in that order), and its first
entry is both the one flagged `NEWEST` (no later entry is flagged) and the
initially highlighted default of the prompt. -/
theorem sortMigrations_spec (l : List MigrationFile) :
    (sortMigrations l).Perm l ∧
    (∀ (i j : Nat) (a b : MigrationFile), i < j →
      (sortMigrations l)[i]? = some a → (sortMigrations l)[j]? = some b →
      b.mtime ≤ a.mtime) ∧
    (∀ a b : MigrationFile, List.Sublist [a, b] l → b.mtime ≤ a.mtime →
      List.Sublist [a, b] (sortMigrations l)) ∧
    (migrationPromptDefault (sortMigrations l) =
      ((migrationChoices (sortMigrations l)).head?).map (·.value)) ∧
    (∀ c : Choice, (migrationChoices (sortMigrations l)).head? = some c →
      ("NEWEST".data.isPrefixOf c.label.data) = true) ∧
    (∀ (i : Nat) (c : Choice),
      (migrationChoices (sortMigrations l))[i + 1]? = some c →
      ("NEWEST".data.isPrefixOf c.label.data) = false) := by
  haveI htotal : IsTotal MigrationFile fun a b => byMtimeDesc a b := by
    constructor
    intro a b
    simp only [byMtimeDesc, decide_eq_true_eq]
    omega
  haveI htrans : IsTrans MigrationFile fun a b => byMtimeDesc a b := by
    constructor
    intro a b c hab hbc
    simp only [byMtimeDesc, decide_eq_true_eq] at *
    omega
  refine ⟨?_, ?_, ?_, ?_, ?_, ?_⟩
  · exact List.perm_insertionSort _ l
  · intro i j a b hij ha hb
    simp only [sortMigrations] at ha hb
    obtain ⟨hilen, hieq⟩ := List.getElem?_eq_some_iff.mp ha
    obtain ⟨hjlen, hjeq⟩ := List.getElem?_eq_some_iff.mp hb
    have hp : List.Pairwise (fun a b => byMtimeDesc a b)
        (l.insertionSort fun a b => byMtimeDesc a b) :=
      List.sorted_insertionSort _ l
    rw [List.pairwise_iff_getElem] at hp
    have h := hp i j hilen hjlen hij
    rw [hieq, hjeq] at h
    simpa [byMtimeDesc] using h
  · intro a b hsub hba
    exact List.pair_sublist_insertionSort (by simpa [byMtimeDesc] using hba) hsub
  · cases h : sortMigrations l with
    | nil => rfl
    | cons f rest => rfl
  · intro c hc
    cases h : sortMigrations l with
    | nil => rw [h] at hc; simp [migrationChoices] at hc
    | cons f rest =>
      rw [h] at hc
      have hhead : (migrationChoices (f :: rest)).head? =
          some ⟨"NEWEST" ++ " " ++ f.name, f.path⟩ := rfl
      rw [hhead] at hc
      obtain rfl := Option.some.inj hc
      rw [List.isPrefixOf_iff_prefix]
      exact ⟨(" " ++ f.name).data, by simp [String.data_append, List.append_assoc]⟩
  · intro i c hc
    have hmc : migrationChoices (sortMigrations l) =
        ((sortMigrations l).enumFrom 0).map fun p =>
          ⟨(if p.1 = 0 then "NEWEST" else "") ++ " " ++ p.2.name, p.2.path⟩ := rfl
    rw [hmc, List.getElem?_map, List.getElem?_enumFrom] at hc
    cases hg : (sortMigrations l)[i + 1]? with
    | none => rw [hg] at hc; simp at hc
    | some f =>
      rw [hg] at hc
      simp only [Option.map_some', Option.some.injEq] at hc
      subst hc
      show "NEWEST".data.isPrefixOf
        (((if 0 + (i + 1) = 0 then "NEWEST" else "") ++ " " ++ f.name).data) = false
      have hcond : ¬ (0 + (i + 1) = 0) := by omega
      rw [if_neg hcond]
      have hdata : ((("" : String) ++ " " ++ f.name)).data = ' ' :: f.name.data := by
        simp [String.data_append]
      rw [hdata]
      have hN : "NEWEST".data = 'N' :: 'E' :: 'W' :: 'E' :: 'S' :: 'T' :: [] := rfl
      have hNe : ('N' == ' ') = false := rfl
      rw [hN]
      simp [List.isPrefixOf, hNe]

/-- C7 witness: two artifacts with equal mtimes keep their input order
through the sort of a concrete three-element list. -/
theorem sortMigrations_spec_witness :
    List.Sublist [(⟨"a.sql", "pa", 5⟩ : MigrationFile), ⟨"b.sql", "pb", 5⟩]
      (sortMigrations [⟨"c.sql", "pc", 9⟩, ⟨"a.sql", "pa", 5⟩, ⟨"b.sql", "pb", 5⟩]) :=
  (sortMigrations_spec
      [⟨"c.sql", "pc", 9⟩, ⟨"a.sql", "pa", 5⟩, ⟨"b.sql", "pb", 5⟩]).2.2.1
    ⟨"a.sql", "pa", 5⟩ ⟨"b.sql", "pb", 5⟩
    (List.Sublist.cons _ (List.Sublist.cons₂ _ (List.Sublist.cons₂ _
      (List.nil_sublist []))))
    (by decide)

/-- C8: the config locator fails fatally, listing the expected candidate
names, when no candidate exists; otherwise it selects the first existing
candidate in the caller-supplied priority order (`find?` over the candidate
list, not any filesystem order) and warns non-fatally exactly when more than
one exists. -/
theorem locateConfig_priority (candidates : List String)
    (present : String → Bool) :
    locateConfig candidates present =
      if (foundConfigs candidates present).length = 0 then
        ⟨some candidates, false, none⟩
      else
        ⟨none, decide (1 < (foundConfigs candidates present).length),
          candidates.find? present⟩ := by
  unfold locateConfig
  by_cases h : (foundConfigs candidates present).length = 0
  · simp [h]
  · simp only [h, if_neg, if_false]
    unfold foundConfigs
    simp [List.filter_head?]

/-- C9: with the migrations folder present but holding no `.sql` file, the
run warns, skips the migration select prompt (only the create-migration
confirm fires), and still issues exactly one execute invocation whose
argument list ends in a trailing `--file` with no path after it (the empty
selected path is filtered out, the flag literal is not). -/
theorem run_no_sql_warns_and_trailing_file
    (workdir out envName : String) (db : D1Database) (files : List String)
    (mtimeOf : String → Nat)
    (hsql : files.filter endsWithSql = [])
    (henv : envName ≠ "") (hdb : db.database_name ≠ "") :
    run (simpleInput workdir out envName db files mtimeOf)
        ⟨none, none, none, some false, none⟩ =
      ⟨[PromptKind.createMigration],
        ["No SQL migration files found in the migrations folder."],
        [("bunx", ["wrangler", "d1", "execute", db.database_name, "--remote",
          "--env", envName, "--file"])], Outcome.success⟩ := by
  have h1 : (db.database_name == "") = false := by simpa using hdb
  simp [run, simpleInput, selectEnvironmentStep, selectValue, falsy,
    databasesOf, selectDatabaseStep, execStage, migrationParams, hsql, henv, h1]

/-- C9 witness: a concrete folder with a single non-SQL file. -/
theorem run_no_sql_warns_and_trailing_file_witness :
    run (simpleInput "./proj" "migr" "prod" ⟨"DB", "app", some "abc"⟩
        ["meta.json"] fun _ => 0) ⟨none, none, none, some false, none⟩ =
      ⟨[PromptKind.createMigration],
        ["No SQL migration files found in the migrations folder."],
        [("bunx", ["wrangler", "d1", "execute", "app", "--remote",
          "--env", "prod", "--file"])], Outcome.success⟩ :=
  run_no_sql_warns_and_trailing_file "./proj" "migr" "prod"
    ⟨"DB", "app", some "abc"⟩ ["meta.json"] (fun _ => 0) (by decide)
    (by decide) (by decide)

/-- C10: the two independently duplicated JSONC-stripping routines (one in
the wrangler config parser, one in the drizzle config parser) compute the
same function: on every input they produce the same cleaned text, and hence
the same parse result or the same failure. -/
theorem parseJsonc_duplicates_agree (cs : List Char) :
    WranglerParse.cleanJsonc cs = DrizzleParse.cleanJsonc cs ∧
    WranglerParse.parseJsonc cs = DrizzleParse.parseJsonc cs := by
  refine ⟨cleanJsonc_eq cs, ?_⟩
  unfold WranglerParse.parseJsonc DrizzleParse.parseJsonc
  rw [cleanJsonc_eq]

end Turbomigrate
